import Mathlib

/-!
# CabinChat host/protocol verification

Shallow embedding of the CabinChat relay core: the newline-delimited JSON
wire codec (`core/protocol.go`) and the host's relay engine
(`Host.handleClient`, `Host.broadcast`, `Host.sendToNick`).  Connections
are modelled as natural-number identifiers, the Go maps as association
lists, and each source function as a pure Lean function from the host
state and the inbound frame to the successor state together with the list
of frames written (connection, message).
-/

namespace CabinChat

/-- The wire message (`core/protocol.go`, struct `Message`).  All five
fields are Go strings; empty string is the zero value that `omitempty`
suppresses on the wire. -/
structure Message where
  type : String
  nick : String
  text : String
  data : String
  target : String
deriving DecidableEq, Repr, Inhabited

/-! ## Message-kind constants (`core/protocol.go` `MsgType*`) -/

def MsgTypeJoin : String := "join"

def MsgTypeMsg : String := "msg"

def MsgTypeSystem : String := "system"

def MsgTypeLeave : String := "leave"

def MsgTypeNick : String := "nick"

def MsgTypeUserList : String := "userlist"

def MsgTypePing : String := "ping"

def MsgTypePong : String := "pong"

def MsgTypeFileOffer : String := "fileoffer"

def MsgTypeFileAcc : String := "fileacc"

def MsgTypeFileRej : String := "filerej"

def MsgTypeFile : String := "file"

def MsgTypeWebRTC : String := "webrtc"

/-! ## Wire codec

`SendMessage` is `json.Marshal` of the `Message` struct followed by a
newline; `ReadMessage` is `bufio.Reader.ReadString` up to the newline
followed by `json.Unmarshal`.  We model `encoding/json` at the shape it
is used: a flat object of string-valued fields, with Go's default string
escaping (control characters, quote, backslash, and the HTML-escaped
`<`, `>`, `&`, U+2028, U+2029). -/

/-- Lowercase hexadecimal digit, as emitted by `encoding/json`. -/
def hexDigitChar (n : Nat) : Char :=
  if n < 10 then Char.ofNat (48 + n) else Char.ofNat (87 + n)

/-- Characters that Go's JSON encoder writes as a `\uXXXX` escape. -/
def needsUEscape (c : Char) : Bool :=
  c.toNat < 32 || c = '<' || c = '>' || c = '&' ||
    c.toNat = 8232 || c.toNat = 8233

/-- Go `encoding/json` escaping of a single character inside a JSON
string literal. -/
def escChar (c : Char) : List Char :=
  if c = '"' then ['\\', '"']
  else if c = '\\' then ['\\', '\\']
  else if c = '\n' then ['\\', 'n']
  else if c = '\r' then ['\\', 'r']
  else if c = '\t' then ['\\', 't']
  else if needsUEscape c then
    ['\\', 'u', hexDigitChar (c.toNat / 4096 % 16), hexDigitChar (c.toNat / 256 % 16),
      hexDigitChar (c.toNat / 16 % 16), hexDigitChar (c.toNat % 16)]
  else [c]

/-- Escaped body of a JSON string literal. -/
def escList (s : List Char) : List Char := s.flatMap escChar

/-- Value of a hexadecimal digit during unescaping. -/
def hexVal (c : Char) : Option Nat :=
  if 48 ≤ c.toNat ∧ c.toNat ≤ 57 then some (c.toNat - 48)
  else if 97 ≤ c.toNat ∧ c.toNat ≤ 102 then some (c.toNat - 87)
  else if 65 ≤ c.toNat ∧ c.toNat ≤ 70 then some (c.toNat - 55)
  else none

/-- Resolution of a single-character JSON escape sequence (`\"`, `\\`,
`\/`, `\b`, `\f`, `\n`, `\r`, `\t`). -/
def parseEscChar (e : Char) : Option Char :=
  if e = '"' then some '"'
  else if e = '\\' then some '\\'
  else if e = '/' then some '/'
  else if e = 'b' then some (Char.ofNat 8)
  else if e = 'f' then some (Char.ofNat 12)
  else if e = 'n' then some '\n'
  else if e = 'r' then some '\r'
  else if e = 't' then some '\t'
  else none

/-- JSON string-literal body decoder: consumes characters up to the
closing quote, resolving escape sequences, and returns the decoded
string together with the input that follows the closing quote. -/
def parseJString : List Char → Option (List Char × List Char)
  | [] => none
  | c :: rest =>
    if c = '"' then some ([], rest)
    else if c = '\\' then
      match rest with
      | [] => none
      | e :: rest1 =>
        if e = 'u' then
          match rest1 with
          | a :: b :: c2 :: d :: rest2 => do
              let ha ← hexVal a
              let hb ← hexVal b
              let hc ← hexVal c2
              let hd ← hexVal d
              let (s, r) ← parseJString rest2
              some (Char.ofNat (ha * 4096 + hb * 256 + hc * 16 + hd) :: s, r)
          | _ => none
        else do
          let dc ← parseEscChar e
          let (s, r) ← parseJString rest1
          some (dc :: s, r)
    else do
      let (s, r) ← parseJString rest
      some (c :: s, r)

/-- Assign a decoded key/value pair to the struct field the key names;
unknown keys are ignored, as `json.Unmarshal` does. -/
def setField (m : Message) (key val : List Char) : Message :=
  if key = "type".data then { m with type := ⟨val⟩ }
  else if key = "nick".data then { m with nick := ⟨val⟩ }
  else if key = "text".data then { m with text := ⟨val⟩ }
  else if key = "data".data then { m with data := ⟨val⟩ }
  else if key = "target".data then { m with target := ⟨val⟩ }
  else m

/-- Zero value of the `Message` struct, as `json.Unmarshal` starts from. -/
def zeroMessage : Message := ⟨"", "", "", "", ""⟩

/-- Member loop of the JSON object decoder: `"key":"value"` pairs
separated by commas, ending at the closing brace.  The fuel argument
only bounds the number of members (one unit per member). -/
def parseMembers : Nat → List Char → Message → Option (Message × List Char)
  | 0, _, _ => none
  | fuel + 1, input, m =>
    match input with
    | [] => none
    | c :: rest =>
      if c = '"' then
        match parseJString rest with
        | none => none
        | some (key, rest1) =>
          match rest1 with
          | [] => none
          | c1 :: rest1' =>
            if c1 = ':' then
              match rest1' with
              | [] => none
              | c2 :: rest2 =>
                if c2 = '"' then
                  match parseJString rest2 with
                  | none => none
                  | some (val, rest3) =>
                    match rest3 with
                    | [] => none
                    | c3 :: rest4 =>
                      if c3 = ',' then parseMembers fuel rest4 (setField m key val)
                      else if c3 = '}' then some (setField m key val, rest4)
                      else none
                else none
            else none
      else none

/-- JSON object decoder for the flat string-field shape of every
protocol frame (`json.Unmarshal` into `Message`). -/
def parseObj (input : List Char) : Option (Message × List Char) :=
  match input with
  | [] => none
  | c :: rest =>
    if c = '{' then
      match rest with
      | [] => none
      | c2 :: rest2 =>
        if c2 = '}' then some (zeroMessage, rest2)
        else parseMembers (rest.length + 1) rest zeroMessage
    else none

/-- JSON whitespace. -/
def isJsonWs (c : Char) : Bool :=
  c = ' ' || c = '\t' || c = '\n' || c = '\r'

/-- One rendered JSON object member `"key":"value"`. -/
def renderMember (key val : List Char) : List Char :=
  '"' :: (escList key ++ '"' :: ':' :: '"' :: (escList val ++ ['"']))

/-- Rendered member list, comma separated. -/
def renderMembers : List (List Char × List Char) → List Char
  | [] => []
  | p :: ps =>
    renderMember p.1 p.2 ++ (if ps = [] then [] else ',' :: renderMembers ps)

/-- The key/value pairs `json.Marshal` serializes for a `Message`:
`type` always, the other four only when non-empty (`omitempty`). -/
def marshalFields (m : Message) : List (List Char × List Char) :=
  ("type".data, m.type.data) ::
    ((if m.nick = "" then [] else [("nick".data, m.nick.data)]) ++
     (if m.text = "" then [] else [("text".data, m.text.data)]) ++
     (if m.data = "" then [] else [("data".data, m.data.data)]) ++
     (if m.target = "" then [] else [("target".data, m.target.data)]))

/-- Model of `json.Marshal` of a `Message`. -/
def jsonMarshal (m : Message) : List Char :=
  '{' :: (renderMembers (marshalFields m) ++ ['}'])

/-- Model of `SendMessage` (`core/protocol.go` lines 37-44): the bytes appended to
the connection — the marshalled message followed by a newline. -/
def SendMessageBytes (m : Message) : List Char :=
  jsonMarshal m ++ ['\n']

/-- Model of `bufio.Reader.ReadString('\n')`: the line up to and including the
first newline, or failure at end of input. -/
def readLine : List Char → Option (List Char × List Char)
  | [] => none
  | c :: rest =>
    if c = '\n' then some (['\n'], rest)
    else do
      let (l, r) ← readLine rest
      some (c :: l, r)

/-- Model of `ReadMessage` (`core/protocol.go` lines 47-55): read one line, then
`json.Unmarshal` it (which tolerates surrounding whitespace, so the
trailing newline is accepted).  Returns the decoded message and the
input positioned after the consumed line. -/
def ReadMessageBytes (input : List Char) : Option (Message × List Char) :=
  match readLine input with
  | none => none
  | some (line, rest) =>
    match parseObj (line.dropWhile isJsonWs) with
    | none => none
    | some (m, tail) => if tail.all isJsonWs then some (m, rest) else none

/-! ## Host model

The host (`src/unnamed/part_000`).  A connection (`net.Conn`) is a
natural-number identifier; the `clients` map and the `pendingOffers` map
are association lists with map semantics (`alSet` overwrites the entry
for an existing key, `alErase` is Go's `delete`).  Each handler returns
the successor state together with the frames written, as
(connection, message) pairs in emission order.  Host-local side effects
(UI callbacks, saving files, handing a signal to the media manager) emit
no frame and are outside the relay state. -/

/-- Map write `m[k] = v` on an association list: replace the entry for
an existing key, otherwise append. -/
def alSet {β : Type} : List (Nat × β) → Nat → β → List (Nat × β)
  | [], k, v => [(k, v)]
  | p :: rest, k, v => if p.1 = k then (k, v) :: rest else p :: alSet rest k v

/-- Map write keyed by string. -/
def alSetS {β : Type} : List (String × β) → String → β → List (String × β)
  | [], k, v => [(k, v)]
  | p :: rest, k, v => if p.1 = k then (k, v) :: rest else p :: alSetS rest k v

/-- Map `delete(m, k)`. -/
def alErase {β : Type} (l : List (Nat × β)) (k : Nat) : List (Nat × β) :=
  l.filter (fun p => p.1 ≠ k)

/-- Map `delete(m, k)` keyed by string. -/
def alEraseS {β : Type} (l : List (String × β)) (k : String) : List (String × β) :=
  l.filter (fun p => p.1 ≠ k)

/-- Map lookup. -/
def alGet {β : Type} : List (Nat × β) → Nat → Option β
  | [], _ => none
  | p :: rest, k => if p.1 = k then some p.2 else alGet rest k

/-- Map lookup keyed by string. -/
def alGetS {β : Type} : List (String × β) → String → Option β
  | [], _ => none
  | p :: rest, k => if p.1 = k then some p.2 else alGetS rest k

/-- Model of `PendingOffer` (`src/unnamed/part_000` lines 27-32). -/
structure PendingOffer where
  senderNick : String
  senderConn : Nat
  filename : String
  recipientNick : String
deriving DecidableEq, Repr

/-- The relay-relevant state of `Host`: the participant registry
(`clients`, connection to nickname), the host's own nickname, the
pending-offer table keyed by sender nickname, and the host-local pending
offer. -/
structure HostState where
  clients : List (Nat × String)
  hostNick : String
  pendingOffers : List (String × PendingOffer)
  hostPendingFile : Option PendingOffer
deriving DecidableEq, Repr

/-- Model of `Host.broadcast` (lines 319-328): send `msg` to every registered
connection other than `exclude` (`nil` = exclude nobody). -/
def hostBroadcast (clients : List (Nat × String)) (msg : Message)
    (exclude : Option Nat) : List (Nat × Message) :=
  (clients.filter (fun p => exclude ≠ some p.1)).map (fun p => (p.1, msg))

/-- Model of `Host.sendToNick` (lines 343-354): send to the first registered
client with the given nickname; report whether one was found. -/
def sendToNick (clients : List (Nat × String)) (nick : String) (msg : Message) :
    List (Nat × Message) × Bool :=
  match clients.find? (fun p => p.2 = nick) with
  | some p => ([(p.1, msg)], true)
  | none => ([], false)

/-- Model of `Host.getUserList` (lines 331-340). -/
def getUserList (st : HostState) : String :=
  String.intercalate ", " ((st.hostNick ++ " (host)") :: st.clients.map (fun p => p.2))

/-- The per-message dispatch of `Host.handleClient` (lines 158-299): the
switch on `msg.Type` for one inbound frame from the registered
connection `conn`.  `client.nick` is the registry entry for `conn`
(the Go registry stores a pointer to the same `Client` value the loop
mutates). -/
def handleClientMsg (st : HostState) (conn : Nat) (msg : Message) :
    HostState × List (Nat × Message) :=
  let nick := (alGet st.clients conn).getD ""
  if msg.type = MsgTypeMsg then
    (st, hostBroadcast st.clients ⟨MsgTypeMsg, nick, msg.text, "", ""⟩ none)
  else if msg.type = MsgTypeNick then
    let clients' := alSet st.clients conn msg.text
    ({ st with clients := clients' },
     hostBroadcast clients'
       ⟨MsgTypeSystem, "", nick ++ " is now known as " ++ msg.text, "", ""⟩ (some conn))
  else if msg.type = MsgTypePing then
    (st, [(conn, ⟨MsgTypePong, "", "", "", ""⟩)])
  else if msg.type = MsgTypeUserList then
    (st, [(conn, ⟨MsgTypeUserList, "", getUserList st, "", ""⟩)])
  else if msg.type = MsgTypeFileOffer then
    let offerMsg : Message := ⟨MsgTypeFileOffer, nick, msg.text, msg.data, ""⟩
    let st1 := { st with
      pendingOffers := alSetS st.pendingOffers nick ⟨nick, conn, msg.text, msg.target⟩ }
    if msg.target ≠ "" then
      if msg.target = st.hostNick then
        ({ st1 with hostPendingFile := some ⟨nick, conn, msg.text, ""⟩ }, [])
      else
        (st1, (sendToNick st1.clients msg.target offerMsg).1)
    else
      ({ st1 with hostPendingFile := some ⟨nick, conn, msg.text, ""⟩ },
       hostBroadcast st1.clients offerMsg (some conn))
  else if msg.type = MsgTypeFileAcc then
    match alGetS st.pendingOffers msg.text with
    | some offer =>
      ({ st with pendingOffers := alEraseS st.pendingOffers msg.text },
       [(offer.senderConn, ⟨MsgTypeFileAcc, nick, offer.filename, "", ""⟩)])
    | none => (st, [])
  else if msg.type = MsgTypeFileRej then
    match alGetS st.pendingOffers msg.text with
    | some offer =>
      ({ st with pendingOffers := alEraseS st.pendingOffers msg.text },
       [(offer.senderConn, ⟨MsgTypeFileRej, nick, "", "", ""⟩)])
    | none => (st, [])
  else if msg.type = MsgTypeFile then
    let fileMsg : Message := ⟨MsgTypeFile, nick, msg.text, msg.data, ""⟩
    if msg.target ≠ "" then
      if msg.target = st.hostNick then (st, [])
      else (st, (sendToNick st.clients msg.target fileMsg).1)
    else (st, hostBroadcast st.clients fileMsg (some conn))
  else if msg.type = MsgTypeWebRTC then
    if msg.target = st.hostNick then (st, [])
    else
      (st, (sendToNick st.clients msg.target
        ⟨MsgTypeWebRTC, nick, "", msg.data, msg.target⟩).1)
  else (st, [])

/-- The join handshake of `Host.handleClient` (lines 126-155): the first
read result on a fresh connection.  `none` models a read error.  The
boolean reports whether the connection was registered (`true`) or closed
without registration (`false`). -/
def handleFirstFrame (st : HostState) (conn : Nat) (first : Option Message) :
    HostState × List (Nat × Message) × Bool :=
  match first with
  | none => (st, ([], false))
  | some msg =>
    if msg.type = MsgTypeJoin then
      let clients' := alSet st.clients conn msg.nick
      ({ st with clients := clients' },
       (hostBroadcast clients' ⟨MsgTypeSystem, "", msg.nick ++ " joined", "", ""⟩
          (some conn), true))
    else (st, ([], false))

/-- The post-loop disconnect path of `Host.handleClient` (lines
301-316): remove the connection from the registry, then broadcast the
leave notice to the remaining participants (exclude `nil`). -/
def disconnectClient (st : HostState) (conn : Nat) : HostState × List (Nat × Message) :=
  let nick := (alGet st.clients conn).getD ""
  let clients' := alErase st.clients conn
  ({ st with clients := clients' },
   hostBroadcast clients' ⟨MsgTypeSystem, "", nick ++ " left", "", ""⟩ none)

/-- The read loop of `Host.handleClient` over a list of successfully
decoded inbound frames: each frame is dispatched in order and the
emitted frames are concatenated. -/
def runLoop : HostState → Nat → List Message → HostState × List (Nat × Message)
  | st, _, [] => (st, [])
  | st, conn, m :: ms =>
    let r1 := handleClientMsg st conn m
    let r2 := runLoop r1.1 conn ms
    (r2.1, r1.2 ++ r2.2)


/-! ## Concrete fixtures for witnesses and counterexamples -/

/-- A room with two registered participants: connection 0 is `alice`,
connection 1 is `bob`; the host's own nickname is `host`. -/
def stAB : HostState := ⟨[(0, "alice"), (1, "bob")], "host", [], none⟩

/-- A pending offer from `alice` (connection 0) of `notes.txt` to `bob`. -/
def offerAlice : PendingOffer := ⟨"alice", 0, "notes.txt", "bob"⟩

/-- State `stAB` with `offerAlice` outstanding in the pending-offer table. -/
def stOffer : HostState := ⟨[(0, "alice"), (1, "bob")], "host", [("alice", offerAlice)], none⟩

/-- A room with three registered participants. -/
def stABC : HostState :=
  ⟨[(0, "alice"), (1, "bob"), (2, "carol")], "host", [], none⟩

/-- Every message kind named by the protocol (`core/protocol.go`). -/
def recognizedKinds : List String :=
  [MsgTypeJoin, MsgTypeMsg, MsgTypeSystem, MsgTypeLeave, MsgTypeNick, MsgTypeUserList,
   MsgTypePing, MsgTypePong, MsgTypeFileOffer, MsgTypeFileAcc, MsgTypeFileRej,
   MsgTypeFile, MsgTypeWebRTC]

/-! ## Codec roundtrip lemmas -/

theorem hexVal_hexDigitChar {n : Nat} (h : n < 16) : hexVal (hexDigitChar n) = some n := by
  interval_cases n <;> decide

theorem hexDigitChar_ne_newline {n : Nat} (h : n < 16) : hexDigitChar n ≠ '\n' := by
  interval_cases n <;> decide

theorem needsUEscape_lt {c : Char} (h : needsUEscape c = true) : c.toNat < 65536 := by
  simp only [needsUEscape, Bool.or_eq_true, decide_eq_true_eq] at h
  rcases h with ((((h | h) | h) | h) | h) | h <;>
    first | omega | (subst h; decide)

theorem parseJString_quote (t : List Char) : parseJString ('"' :: t) = some ([], t) := by
  rw [parseJString.eq_def]; simp

theorem parseJString_plain {c : Char} (h1 : c ≠ '"') (h2 : c ≠ '\\')
    {t s rest : List Char} (hrec : parseJString t = some (s, rest)) :
    parseJString (c :: t) = some (c :: s, rest) := by
  rw [parseJString.eq_def]; simp [h1, h2, hrec]

theorem parseJString_esc {e dc : Char} (he : e ≠ 'u') (hd : parseEscChar e = some dc)
    {t s rest : List Char} (hrec : parseJString t = some (s, rest)) :
    parseJString ('\\' :: e :: t) = some (dc :: s, rest) := by
  rw [parseJString.eq_def]; simp [he, hd, hrec]

theorem parseJString_unicode {a b c2 d : Char} {ha hb hc hd : Nat}
    (h1 : hexVal a = some ha) (h2 : hexVal b = some hb)
    (h3 : hexVal c2 = some hc) (h4 : hexVal d = some hd)
    {t s rest : List Char} (hrec : parseJString t = some (s, rest)) :
    parseJString ('\\' :: 'u' :: a :: b :: c2 :: d :: t) =
      some (Char.ofNat (ha * 4096 + hb * 256 + hc * 16 + hd) :: s, rest) := by
  rw [parseJString.eq_def]; simp [h1, h2, h3, h4, hrec]

/-- The string-literal decoder inverts Go's string escaping. -/
theorem parseJString_escList (s : List Char) :
    ∀ rest : List Char, parseJString (escList s ++ '"' :: rest) = some (s, rest) := by
  induction s with
  | nil => intro rest; exact parseJString_quote rest
  | cons c s ih =>
    intro rest
    have hesc : escList (c :: s) = escChar c ++ escList s := List.flatMap_cons ..
    rw [hesc, List.append_assoc]
    by_cases h1 : c = '"'
    · subst h1
      simpa [escChar] using parseJString_esc (by decide) (by decide) (ih rest)
    · by_cases h2 : c = '\\'
      · subst h2
        simpa [escChar] using parseJString_esc (by decide) (by decide) (ih rest)
      · by_cases h3 : c = '\n'
        · subst h3
          simpa [escChar] using parseJString_esc (by decide) (by decide) (ih rest)
        · by_cases h4 : c = '\r'
          · subst h4
            simpa [escChar] using parseJString_esc (by decide) (by decide) (ih rest)
          · by_cases h5 : c = '\t'
            · subst h5
              simpa [escChar] using parseJString_esc (by decide) (by decide) (ih rest)
            · by_cases h6 : needsUEscape c
              · have hlt := needsUEscape_lt h6
                have e1 : c.toNat / 4096 % 16 < 16 := Nat.mod_lt _ (by omega)
                have e2 : c.toNat / 256 % 16 < 16 := Nat.mod_lt _ (by omega)
                have e3 : c.toNat / 16 % 16 < 16 := Nat.mod_lt _ (by omega)
                have e4 : c.toNat % 16 < 16 := Nat.mod_lt _ (by omega)
                have hsum : c.toNat / 4096 % 16 * 4096 + c.toNat / 256 % 16 * 256 +
                    c.toNat / 16 % 16 * 16 + c.toNat % 16 = c.toNat := by omega
                have := parseJString_unicode (hexVal_hexDigitChar e1)
                  (hexVal_hexDigitChar e2) (hexVal_hexDigitChar e3)
                  (hexVal_hexDigitChar e4) (ih rest)
                rw [hsum, Char.ofNat_toNat] at this
                simpa [escChar, h1, h2, h3, h4, h5, h6] using this
              · simpa [escChar, h1, h2, h3, h4, h5, h6] using
                  parseJString_plain h1 h2 (ih rest)

/-- Escaping never produces a raw newline (so every marshalled frame is
one line). -/
theorem newline_not_mem_escChar (c : Char) : '\n' ∉ escChar c := by
  by_cases h1 : c = '"'
  · subst h1; decide
  · by_cases h2 : c = '\\'
    · subst h2; decide
    · by_cases h3 : c = '\n'
      · subst h3; decide
      · by_cases h4 : c = '\r'
        · subst h4; decide
        · by_cases h5 : c = '\t'
          · subst h5; decide
          · by_cases h6 : needsUEscape c
            · have hlt := needsUEscape_lt h6
              have e1 : c.toNat / 4096 % 16 < 16 := Nat.mod_lt _ (by omega)
              have e2 : c.toNat / 256 % 16 < 16 := Nat.mod_lt _ (by omega)
              have e3 : c.toNat / 16 % 16 < 16 := Nat.mod_lt _ (by omega)
              have e4 : c.toNat % 16 < 16 := Nat.mod_lt _ (by omega)
              simp only [escChar, h1, h2, h3, h4, h5, h6, if_true, if_false]
              simp [List.mem_cons, (hexDigitChar_ne_newline e1).symm,
                (hexDigitChar_ne_newline e2).symm, (hexDigitChar_ne_newline e3).symm,
                (hexDigitChar_ne_newline e4).symm]
            · simp [escChar, h1, h2, h3, h4, h5, h6]
              exact fun h => h3 h.symm

theorem newline_not_mem_escList (s : List Char) : '\n' ∉ escList s := by
  simp only [escList, List.mem_flatMap, not_exists]
  intro x
  exact fun h => (newline_not_mem_escChar x) h.2

/-- Reading a line: `ReadString('\n')` on a newline-free prefix followed by a newline
consumes exactly that line. -/
theorem readLine_append (l : List Char) (rest : List Char) (h : '\n' ∉ l) :
    readLine (l ++ '\n' :: rest) = some (l ++ ['\n'], rest) := by
  induction l with
  | nil => simp [readLine]
  | cons c l ih =>
    have hc : c ≠ '\n' := fun e => h (e ▸ List.mem_cons_self c l)
    have hl : '\n' ∉ l := fun e => h (List.mem_cons_of_mem c e)
    simp [readLine, hc, ih hl]

/-- One iteration of the member loop over one rendered member followed by
a separator. -/
theorem parseMembers_step (fuel : Nat) (k v : List Char) (m : Message) (c3 : Char)
    (tail : List Char) :
    parseMembers (fuel + 1) (renderMember k v ++ c3 :: tail) m =
      (if c3 = ',' then parseMembers fuel tail (setField m k v)
       else if c3 = '}' then some (setField m k v, tail)
       else none) := by
  rw [parseMembers.eq_def]
  simp [renderMember, parseJString_escList, List.cons_append, List.append_assoc]

/-- The member loop inverts the member renderer, folding the decoded
pairs into the accumulator. -/
theorem parseMembers_renderMembers (ps : List (List Char × List Char)) :
    ∀ (fuel : Nat) (m : Message) (tail : List Char), ps ≠ [] → ps.length ≤ fuel →
      parseMembers fuel (renderMembers ps ++ '}' :: tail) m =
        some (ps.foldl (fun acc q => setField acc q.1 q.2) m, tail) := by
  induction ps with
  | nil => intro _ _ _ hne _; exact absurd rfl hne
  | cons p ps ih =>
    intro fuel m tail _ hlen
    obtain ⟨k, v⟩ := p
    cases fuel with
    | zero => simp at hlen
    | succ fuel =>
      by_cases hps : ps = []
      · subst hps
        have hr : renderMembers [(k, v)] = renderMember k v := by
          simp [renderMembers]
        rw [hr, parseMembers_step]
        simp
      · have hr : renderMembers ((k, v) :: ps) ++ '}' :: tail =
            renderMember k v ++ ',' :: (renderMembers ps ++ '}' :: tail) := by
          simp [renderMembers, hps]
        rw [hr, parseMembers_step]
        simp only [if_pos rfl]
        have hlen' : ps.length ≤ fuel := by
          simp only [List.length_cons] at hlen; omega
        rw [ih fuel (setField m k v) tail hps hlen']
        simp

/-- Each member contributes at least one rendered character, so the
member count is bounded by the rendered length. -/
theorem renderMembers_length (ps : List (List Char × List Char)) :
    ps.length ≤ (renderMembers ps).length := by
  induction ps with
  | nil => simp [renderMembers]
  | cons p ps ih =>
    by_cases hps : ps = []
    · subst hps; simp [renderMembers, renderMember]
    · simp only [renderMembers, if_neg hps, List.length_cons, List.length_append]
      have h1 : 1 ≤ (renderMember p.1 p.2).length := by simp [renderMember]
      omega

/-- The object decoder on a brace followed by a quote enters the member
loop. -/
theorem parseObj_cons_quote (REST : List Char) :
    parseObj ('{' :: '"' :: REST) =
      parseMembers (('"' :: REST).length + 1) ('"' :: REST) zeroMessage := by
  rw [parseObj.eq_def]; simp

/-- The object decoder inverts the object renderer on any non-empty
member list. -/
theorem parseObj_render (k v : List Char) (ps : List (List Char × List Char))
    (tail : List Char) :
    parseObj ('{' :: (renderMembers ((k, v) :: ps) ++ '}' :: tail)) =
      some ((((k, v) :: ps)).foldl (fun acc q => setField acc q.1 q.2) zeroMessage, tail) := by
  have hshape : renderMembers ((k, v) :: ps) ++ '}' :: tail =
      '"' :: ((escList k ++ ('"' :: ':' :: '"' :: (escList v ++ ['"'])) ++
        ((if ps = [] then [] else ',' :: renderMembers ps) ++ '}' :: tail))) := by
    simp [renderMembers, renderMember, List.append_assoc]
  have hfuel : ((k, v) :: ps).length ≤
      (renderMembers ((k, v) :: ps) ++ '}' :: tail).length + 1 := by
    have h := renderMembers_length ((k, v) :: ps)
    simp only [List.length_append, List.length_cons] at h ⊢
    omega
  rw [hshape, parseObj_cons_quote, ← hshape]
  exact parseMembers_renderMembers _ _ _ _ (by simp) hfuel

/-- Folding the marshalled fields back into the zero message rebuilds
the original message (omitted fields keep their zero value). -/
theorem foldl_setField_marshalFields (m : Message) :
    (marshalFields m).foldl (fun acc q => setField acc q.1 q.2) zeroMessage = m := by
  obtain ⟨t, n, x, d, g⟩ := m
  by_cases hn : n = "" <;> by_cases hx : x = "" <;> by_cases hd : d = "" <;>
    by_cases hg : g = "" <;>
    simp [marshalFields, setField, zeroMessage, hn, hx, hd, hg]

/-- No marshalled frame contains a raw newline before its terminator. -/
theorem newline_not_mem_renderMembers (ps : List (List Char × List Char)) :
    '\n' ∉ renderMembers ps := by
  induction ps with
  | nil => simp [renderMembers]
  | cons p ps ih =>
    by_cases hps : ps = []
    · subst hps
      simp [renderMembers, renderMember, List.mem_append, List.mem_cons,
        newline_not_mem_escList]
    · simp only [renderMembers, if_neg hps, List.mem_append, List.mem_cons]
      intro h
      rcases h with h | h
      · revert h
        simp [renderMember, List.mem_append, List.mem_cons, newline_not_mem_escList]
      · rcases h with h | h
        · exact absurd h (by decide)
        · exact ih h

theorem newline_not_mem_jsonMarshal (m : Message) : '\n' ∉ jsonMarshal m := by
  simp only [jsonMarshal, List.mem_cons, List.mem_append]
  intro h
  rcases h with h | h | h
  · exact absurd h (by decide)
  · exact newline_not_mem_renderMembers _ h
  · exact absurd h (by decide)

/-- Unfolding lemma: `marshalFields` always starts with the `type` member. -/
theorem marshalFields_cons (m : Message) :
    marshalFields m = ("type".data, m.type.data) ::
      ((if m.nick = "" then [] else [("nick".data, m.nick.data)]) ++
       (if m.text = "" then [] else [("text".data, m.text.data)]) ++
       (if m.data = "" then [] else [("data".data, m.data.data)]) ++
       (if m.target = "" then [] else [("target".data, m.target.data)])) := rfl

/-- Decoding a marshalled message consumes it exactly, leaving the given
tail. -/
theorem parseObj_jsonMarshal (m : Message) (tail : List Char) :
    parseObj ('{' :: (renderMembers (marshalFields m) ++ '}' :: tail)) =
      some (m, tail) := by
  rw [marshalFields_cons, parseObj_render, ← marshalFields_cons,
    foldl_setField_marshalFields]

/-- Claim C9: Encoding any `Message` and decoding the produced bytes yields
the original message back; the decoder consumes exactly the one
newline-terminated frame and leaves the reader at the next frame. -/
theorem ReadMessage_SendMessage (m : Message) (rest : List Char) :
    ReadMessageBytes (SendMessageBytes m ++ rest) = some (m, rest) := by
  have hnl := newline_not_mem_jsonMarshal m
  have h1 : readLine (SendMessageBytes m ++ rest) = some (jsonMarshal m ++ ['\n'], rest) := by
    have h := readLine_append (jsonMarshal m) rest hnl
    simpa [SendMessageBytes, List.append_assoc] using h
  have hdrop : (jsonMarshal m ++ ['\n']).dropWhile isJsonWs = jsonMarshal m ++ ['\n'] := by
    rw [jsonMarshal]
    simp [List.dropWhile, isJsonWs]
  have hform : jsonMarshal m ++ ['\n'] =
      '{' :: (renderMembers (marshalFields m) ++ '}' :: ['\n']) := by
    simp [jsonMarshal, List.append_assoc]
  simp only [ReadMessageBytes, h1]
  rw [hdrop, hform, parseObj_jsonMarshal]
  simp [isJsonWs]

/-! ## Map lemmas -/

theorem alGetS_alSetS_self {β : Type} (l : List (String × β)) (k : String) (v : β) :
    alGetS (alSetS l k v) k = some v := by
  induction l with
  | nil => simp [alSetS, alGetS]
  | cons p l ih =>
    by_cases hp : p.1 = k
    · simp [alSetS, alGetS, hp]
    · simp [alSetS, alGetS, hp, ih]

theorem alGetS_alEraseS_self {β : Type} (l : List (String × β)) (k : String) :
    alGetS (alEraseS l k) k = none := by
  induction l with
  | nil => simp [alEraseS, alGetS]
  | cons p l ih =>
    by_cases hp : p.1 = k
    · simpa [alEraseS, List.filter_cons, hp] using ih
    · simpa [alEraseS, List.filter_cons, hp, alGetS] using ih

/-! ## Handler characterization lemmas (shared helpers) -/

/-- A FileOffer always records the offer in the pending-offer table keyed
by the sender's registry nickname, whatever the target, and never touches
the registry. -/
theorem handleClientMsg_fileoffer (st : HostState) (conn : Nat) (msg : Message)
    (h : msg.type = MsgTypeFileOffer) :
    (handleClientMsg st conn msg).1.clients = st.clients ∧
    (handleClientMsg st conn msg).1.hostNick = st.hostNick ∧
    (handleClientMsg st conn msg).1.pendingOffers =
      alSetS st.pendingOffers ((alGet st.clients conn).getD "")
        ⟨(alGet st.clients conn).getD "", conn, msg.text, msg.target⟩ := by
  simp only [handleClientMsg, h, MsgTypeFileOffer, MsgTypeMsg, MsgTypeNick,
    MsgTypePing, MsgTypeUserList, String.reduceEq, if_false, if_true, ite_false,
    ite_true]
  split_ifs <;> simp

/-- A FileAccept whose cited sender has a pending offer resolves it:
the offer is removed and one FileAccept frame (acceptor's registry
nickname, offered filename) goes to the stored sender connection. -/
theorem handleClientMsg_fileacc_hit (st : HostState) (conn : Nat) (msg : Message)
    (offer : PendingOffer) (h : msg.type = MsgTypeFileAcc)
    (hoff : alGetS st.pendingOffers msg.text = some offer) :
    handleClientMsg st conn msg =
      ({ st with pendingOffers := alEraseS st.pendingOffers msg.text },
       [(offer.senderConn,
         ⟨MsgTypeFileAcc, (alGet st.clients conn).getD "", offer.filename, "", ""⟩)]) := by
  simp [handleClientMsg, h, MsgTypeFileAcc, MsgTypeMsg, MsgTypeNick, MsgTypePing,
    MsgTypeUserList, MsgTypeFileOffer, hoff]

/-- A FileAccept with no matching pending offer is a complete no-op. -/
theorem handleClientMsg_fileacc_miss (st : HostState) (conn : Nat) (msg : Message)
    (h : msg.type = MsgTypeFileAcc)
    (hoff : alGetS st.pendingOffers msg.text = none) :
    handleClientMsg st conn msg = (st, []) := by
  simp [handleClientMsg, h, MsgTypeFileAcc, MsgTypeMsg, MsgTypeNick, MsgTypePing,
    MsgTypeUserList, MsgTypeFileOffer, hoff]

/-! ## Claims -/

/-- Claim C1 counterexample: The claim says a Chat broadcast excludes the
sender's own connection.  In the two-participant room `stAB`, connection
0 (`alice`) sends a Chat frame and the host's output contains a copy
addressed back to connection 0: the sender does receive its own Chat
frame (the broadcast at line 170 passes `nil` as the excluded
connection). -/
theorem chat_echo_counterexample :
    (handleClientMsg stAB 0 ⟨MsgTypeMsg, "", "hi", "", ""⟩).2 =
      [(0, ⟨MsgTypeMsg, "alice", "hi", "", ""⟩), (1, ⟨MsgTypeMsg, "alice", "hi", "", ""⟩)] ∧
    (0, (⟨MsgTypeMsg, "alice", "hi", "", ""⟩ : Message)) ∈
      (handleClientMsg stAB 0 ⟨MsgTypeMsg, "", "hi", "", ""⟩).2 := by
  decide

/-- Claim C1 amended: For every Chat message received from a registered
participant, the host broadcasts exactly one Chat frame carrying that
participant's nickname and the message text to every registered
participant **including** the sender's own connection (the sender relies
on this server echo), and the host state is unchanged. -/
theorem chat_broadcast_includes_sender (st : HostState) (conn : Nat) (msg : Message)
    (h : msg.type = MsgTypeMsg) :
    handleClientMsg st conn msg =
      (st, st.clients.map (fun p =>
        (p.1, ⟨MsgTypeMsg, (alGet st.clients conn).getD "", msg.text, "", ""⟩))) := by
  simp [handleClientMsg, h, MsgTypeMsg, hostBroadcast]

/-- Witness for C1: concrete evaluation in the two-participant room. -/
theorem chat_broadcast_includes_sender_witness :
    (⟨MsgTypeMsg, "", "hi", "", ""⟩ : Message).type = MsgTypeMsg ∧
    handleClientMsg stAB 0 ⟨MsgTypeMsg, "", "hi", "", ""⟩ =
      (stAB, [(0, ⟨MsgTypeMsg, "alice", "hi", "", ""⟩),
              (1, ⟨MsgTypeMsg, "alice", "hi", "", ""⟩)]) :=
  ⟨rfl, by rw [chat_broadcast_includes_sender stAB 0 _ rfl]; decide⟩

/-- Claim C2 counterexample: The claim says a frame with an unrecognized
kind fails decoding with `UnknownMessageKind` and the host drops the
connection.  In fact decoding the frame succeeds (the JSON codec never
inspects the kind), and the host silently skips the frame and keeps
serving the same connection: a Chat frame sent after the bogus frame is
still broadcast. -/
theorem unknown_kind_counterexample :
    ReadMessageBytes (SendMessageBytes ⟨"bogus", "", "", "", ""⟩ ++
        SendMessageBytes ⟨MsgTypeMsg, "", "hi", "", ""⟩) =
      some (⟨"bogus", "", "", "", ""⟩, SendMessageBytes ⟨MsgTypeMsg, "", "hi", "", ""⟩) ∧
    runLoop stAB 0 [⟨"bogus", "", "", "", ""⟩, ⟨MsgTypeMsg, "", "hi", "", ""⟩] =
      (stAB, [(0, ⟨MsgTypeMsg, "alice", "hi", "", ""⟩),
              (1, ⟨MsgTypeMsg, "alice", "hi", "", ""⟩)]) := by
  constructor
  · decide
  · decide

/-- Claim C2 amended: Decoding a frame whose kind is not one of the
recognized message kinds succeeds (the codec is kind-agnostic); the host
ignores such a frame entirely — no state change, no output frame, the
connection is not dropped, and subsequent frames are still processed. -/
theorem unknown_kind_ignored (st : HostState) (conn : Nat) (msg : Message)
    (ms : List Message) (h : msg.type ∉ recognizedKinds) :
    handleClientMsg st conn msg = (st, []) ∧
    runLoop st conn (msg :: ms) = runLoop st conn ms := by
  have h1 : msg.type ≠ MsgTypeMsg := fun e => h (by rw [e]; decide)
  have h2 : msg.type ≠ MsgTypeNick := fun e => h (by rw [e]; decide)
  have h3 : msg.type ≠ MsgTypePing := fun e => h (by rw [e]; decide)
  have h4 : msg.type ≠ MsgTypeUserList := fun e => h (by rw [e]; decide)
  have h5 : msg.type ≠ MsgTypeFileOffer := fun e => h (by rw [e]; decide)
  have h6 : msg.type ≠ MsgTypeFileAcc := fun e => h (by rw [e]; decide)
  have h7 : msg.type ≠ MsgTypeFileRej := fun e => h (by rw [e]; decide)
  have h8 : msg.type ≠ MsgTypeFile := fun e => h (by rw [e]; decide)
  have h9 : msg.type ≠ MsgTypeWebRTC := fun e => h (by rw [e]; decide)
  have hstep : handleClientMsg st conn msg = (st, []) := by
    simp [handleClientMsg, h1, h2, h3, h4, h5, h6, h7, h8, h9]
  exact ⟨hstep, by simp [runLoop, hstep]⟩

/-- Witness for C2: an unrecognized kind `bogus` is ignored before a
Chat frame in the three-participant room. -/
theorem unknown_kind_ignored_witness :
    (⟨"bogus", "", "", "", ""⟩ : Message).type ∉ recognizedKinds ∧
    handleClientMsg stABC 2 ⟨"bogus", "", "", "", ""⟩ = (stABC, []) ∧
    runLoop stABC 2 [⟨"bogus", "", "", "", ""⟩] = runLoop stABC 2 [] :=
  ⟨by decide,
   (unknown_kind_ignored stABC 2 ⟨"bogus", "", "", "", ""⟩ [] (by decide)).1,
   (unknown_kind_ignored stABC 2 ⟨"bogus", "", "", "", ""⟩ [] (by decide)).2⟩

/-- Claim C3: Processing a FileAccept whose `text` names sender `S`: if the
pending-offer table holds an offer keyed by `S`, that offer is removed
(a second accept then finds nothing) and exactly one FileAccept frame
carrying the acceptor's nickname and the offered filename is written to
the stored sender connection; if no offer keyed by `S` exists, no frame
is emitted and the state is unchanged. -/
theorem fileacc_resolves_or_drops (st : HostState) (conn : Nat) (msg : Message)
    (h : msg.type = MsgTypeFileAcc) :
    (∀ offer, alGetS st.pendingOffers msg.text = some offer →
      handleClientMsg st conn msg =
        ({ st with pendingOffers := alEraseS st.pendingOffers msg.text },
         [(offer.senderConn,
           ⟨MsgTypeFileAcc, (alGet st.clients conn).getD "", offer.filename, "", ""⟩)]) ∧
      alGetS (handleClientMsg st conn msg).1.pendingOffers msg.text = none) ∧
    (alGetS st.pendingOffers msg.text = none →
      handleClientMsg st conn msg = (st, [])) := by
  refine ⟨fun offer hoff => ⟨handleClientMsg_fileacc_hit st conn msg offer h hoff, ?_⟩,
    fun hoff => handleClientMsg_fileacc_miss st conn msg h hoff⟩
  rw [handleClientMsg_fileacc_hit st conn msg offer h hoff]
  exact alGetS_alEraseS_self _ _

/-- Witness for C3: `bob` (connection 1) accepts `alice`'s pending offer
in `stOffer`; connection 0 receives one FileAccept frame naming `bob`
and `notes.txt`, and the offer is cleared. -/
theorem fileacc_resolves_or_drops_witness :
    (⟨MsgTypeFileAcc, "", "alice", "", ""⟩ : Message).type = MsgTypeFileAcc ∧
    handleClientMsg stOffer 1 ⟨MsgTypeFileAcc, "", "alice", "", ""⟩ =
      ({ stOffer with pendingOffers := alEraseS stOffer.pendingOffers "alice" },
       [(0, ⟨MsgTypeFileAcc, "bob", "notes.txt", "", ""⟩)]) :=
  ⟨rfl,
   ((fileacc_resolves_or_drops stOffer 1 ⟨MsgTypeFileAcc, "", "alice", "", ""⟩ rfl).1
      offerAlice (by decide)).1⟩

/-- Claim C4: The pending-offer table holds at most one offer per sender:
a second FileOffer from the same connection silently overwrites the
first, so after two sequential offers the table resolves the sender's
nickname to the second offer's data, and any later FileAccept citing
that sender is answered with the second offer's filename (the first
offer can no longer be resolved). -/
theorem fileoffer_overwrites_prior (st : HostState) (connA : Nat) (o1 o2 : Message)
    (h1 : o1.type = MsgTypeFileOffer) (h2 : o2.type = MsgTypeFileOffer) :
    alGetS ((handleClientMsg (handleClientMsg st connA o1).1 connA o2).1).pendingOffers
        ((alGet st.clients connA).getD "") =
      some ⟨(alGet st.clients connA).getD "", connA, o2.text, o2.target⟩ ∧
    ∀ connB accMsg, accMsg.type = MsgTypeFileAcc →
      accMsg.text = (alGet st.clients connA).getD "" →
      (handleClientMsg ((handleClientMsg (handleClientMsg st connA o1).1 connA o2).1)
          connB accMsg).2 =
        [(connA, ⟨MsgTypeFileAcc,
          (alGet ((handleClientMsg (handleClientMsg st connA o1).1 connA o2).1).clients
            connB).getD "", o2.text, "", ""⟩)] := by
  obtain ⟨hc1, hh1, hp1⟩ := handleClientMsg_fileoffer st connA o1 h1
  obtain ⟨hc2, hh2, hp2⟩ :=
    handleClientMsg_fileoffer (handleClientMsg st connA o1).1 connA o2 h2
  have hnick : (alGet (handleClientMsg st connA o1).1.clients connA).getD "" =
      (alGet st.clients connA).getD "" := by rw [hc1]
  have hget : alGetS ((handleClientMsg (handleClientMsg st connA o1).1 connA o2).1).pendingOffers
      ((alGet st.clients connA).getD "") =
      some ⟨(alGet st.clients connA).getD "", connA, o2.text, o2.target⟩ := by
    rw [hp2, hnick]
    exact alGetS_alSetS_self _ _ _
  refine ⟨hget, fun connB accMsg hacc hcite => ?_⟩
  rw [handleClientMsg_fileacc_hit _ connB accMsg
    ⟨(alGet st.clients connA).getD "", connA, o2.text, o2.target⟩ hacc
    (by rw [hcite]; exact hget)]

/-- Witness for C4: `alice` offers `a.txt` then `b.txt`; the table holds
only `b.txt`, and `bob`'s accept is answered with `b.txt`. -/
theorem fileoffer_overwrites_prior_witness :
    (⟨MsgTypeFileOffer, "", "a.txt", "1KB", "bob"⟩ : Message).type = MsgTypeFileOffer ∧
    alGetS ((handleClientMsg (handleClientMsg stAB 0 ⟨MsgTypeFileOffer, "", "a.txt", "1KB", "bob"⟩).1
        0 ⟨MsgTypeFileOffer, "", "b.txt", "2KB", ""⟩).1).pendingOffers "alice" =
      some ⟨"alice", 0, "b.txt", ""⟩ :=
  ⟨rfl,
   (fileoffer_overwrites_prior stAB 0 ⟨MsgTypeFileOffer, "", "a.txt", "1KB", "bob"⟩
      ⟨MsgTypeFileOffer, "", "b.txt", "2KB", ""⟩ rfl rfl).1⟩

/-- Claim C5 counterexample: The claim says a relayed SignalRelay frame
preserves every field except the sender nickname, including `text`.  In
`stAB`, `alice` sends a webrtc frame with `text = "hello"` targeted at
`bob`; the frame delivered to `bob` has an empty `text` field (line 293
rebuilds the forwarded message without copying `Text`). -/
theorem webrtc_text_dropped_counterexample :
    (handleClientMsg stAB 0 ⟨MsgTypeWebRTC, "", "hello", "sig", "bob"⟩).2 =
      [(1, ⟨MsgTypeWebRTC, "alice", "", "sig", "bob"⟩)] ∧
    (handleClientMsg stAB 0 ⟨MsgTypeWebRTC, "", "hello", "sig", "bob"⟩).2 ≠
      [(1, ⟨MsgTypeWebRTC, "alice", "hello", "sig", "bob"⟩)] := by
  decide

/-- Claim C5 amended: When the host relays a SignalRelay (webrtc) frame
whose target is a registered participant other than the host, the
recipient receives one frame with the kind, payload (`data`) and
`target` preserved from the inbound frame, the sender nickname rewritten
to the originating participant's registry nickname, and the `text` field
cleared (not preserved). -/
theorem webrtc_forward_clears_text (st : HostState) (conn : Nat) (msg : Message)
    (p : Nat × String) (h : msg.type = MsgTypeWebRTC) (ht : msg.target ≠ st.hostNick)
    (hfind : st.clients.find? (fun q => q.2 = msg.target) = some p) :
    handleClientMsg st conn msg =
      (st, [(p.1, ⟨MsgTypeWebRTC, (alGet st.clients conn).getD "", "", msg.data,
        msg.target⟩)]) := by
  simp [handleClientMsg, h, MsgTypeMsg, MsgTypeNick, MsgTypePing, MsgTypeUserList, MsgTypeFileOffer, MsgTypeFileAcc, MsgTypeFileRej, MsgTypeFile, MsgTypeWebRTC, ht, sendToNick, hfind]

/-- Witness for C5: concrete relay from `alice` to `bob`. -/
theorem webrtc_forward_clears_text_witness :
    (⟨MsgTypeWebRTC, "", "hello", "sig", "bob"⟩ : Message).type = MsgTypeWebRTC ∧
    ("bob" : String) ≠ stAB.hostNick ∧
    handleClientMsg stAB 0 ⟨MsgTypeWebRTC, "", "hello", "sig", "bob"⟩ =
      (stAB, [(1, ⟨MsgTypeWebRTC, "alice", "", "sig", "bob"⟩)]) :=
  ⟨rfl, by decide,
   webrtc_forward_clears_text stAB 0 ⟨MsgTypeWebRTC, "", "hello", "sig", "bob"⟩
     (1, "bob") rfl (by decide) (by decide)⟩

/-- Claim C6: For the kinds the host unicasts by nickname (FileOffer,
FileData, SignalRelay), a non-empty target nickname that matches no
registered participant produces no outbound frame at all — nothing to
the named target and no error frame back to the sender. -/
theorem unicast_unknown_nick_silent (st : HostState) (conn : Nat) (msg : Message)
    (hk : msg.type = MsgTypeFileOffer ∨ msg.type = MsgTypeFile ∨ msg.type = MsgTypeWebRTC)
    (hne : msg.target ≠ "")
    (hunknown : ∀ p ∈ st.clients, p.2 ≠ msg.target) :
    (handleClientMsg st conn msg).2 = [] := by
  have hfind : st.clients.find? (fun q => q.2 = msg.target) = none := by
    rw [List.find?_eq_none]
    intro x hx
    simpa using hunknown x hx
  rcases hk with h | h | h
  · by_cases hh : msg.target = st.hostNick
    · have hh0 : st.hostNick ≠ "" := hh ▸ hne
      simp [handleClientMsg, h, MsgTypeMsg, MsgTypeNick, MsgTypePing, MsgTypeUserList, MsgTypeFileOffer, MsgTypeFileAcc, MsgTypeFileRej, MsgTypeFile, MsgTypeWebRTC, hne, hh, hh0, sendToNick, hfind]
    · simp [handleClientMsg, h, MsgTypeMsg, MsgTypeNick, MsgTypePing, MsgTypeUserList, MsgTypeFileOffer, MsgTypeFileAcc, MsgTypeFileRej, MsgTypeFile, MsgTypeWebRTC, hne, hh, sendToNick, hfind]
  · by_cases hh : msg.target = st.hostNick
    · have hh0 : st.hostNick ≠ "" := hh ▸ hne
      simp [handleClientMsg, h, MsgTypeMsg, MsgTypeNick, MsgTypePing, MsgTypeUserList, MsgTypeFileOffer, MsgTypeFileAcc, MsgTypeFileRej, MsgTypeFile, MsgTypeWebRTC, hne, hh, hh0, sendToNick, hfind]
    · simp [handleClientMsg, h, MsgTypeMsg, MsgTypeNick, MsgTypePing, MsgTypeUserList, MsgTypeFileOffer, MsgTypeFileAcc, MsgTypeFileRej, MsgTypeFile, MsgTypeWebRTC, hne, hh, sendToNick, hfind]
  · by_cases hh : msg.target = st.hostNick <;>
      simp [handleClientMsg, h, MsgTypeMsg, MsgTypeNick, MsgTypePing, MsgTypeUserList, MsgTypeFileOffer, MsgTypeFileAcc, MsgTypeFileRej, MsgTypeFile, MsgTypeWebRTC, hh, sendToNick, hfind]

/-- Witness for C6: FileData addressed to the unknown nickname `carol`
in the two-participant room emits nothing. -/
theorem unicast_unknown_nick_silent_witness :
    ((⟨MsgTypeFile, "", "x.txt", "QUJD", "carol"⟩ : Message).type = MsgTypeFileOffer ∨
      (⟨MsgTypeFile, "", "x.txt", "QUJD", "carol"⟩ : Message).type = MsgTypeFile ∨
      (⟨MsgTypeFile, "", "x.txt", "QUJD", "carol"⟩ : Message).type = MsgTypeWebRTC) ∧
    (handleClientMsg stAB 0 ⟨MsgTypeFile, "", "x.txt", "QUJD", "carol"⟩).2 = [] :=
  ⟨Or.inr (Or.inl rfl),
   unicast_unknown_nick_silent stAB 0 ⟨MsgTypeFile, "", "x.txt", "QUJD", "carol"⟩
     (Or.inr (Or.inl rfl)) (by decide) (by decide)⟩

/-- Claim C7 counterexample: The claim says that after a participant's
removal the host never writes any further frame to that participant's
connection.  False: disconnect does not clean the pending-offer table.
In `stOffer`, `alice` (connection 0) has an unresolved offer; after
`alice` disconnects (and is gone from the registry), `bob`'s FileAccept
citing `alice` still makes the host write a FileAccept frame addressed
to connection 0 — a frame to the removed connection (the stored
`SenderConn` at line 239 is used without checking the registry). -/
theorem disconnect_stale_offer_counterexample :
    (disconnectClient stOffer 0).1.clients = [(1, "bob")] ∧
    (disconnectClient stOffer 0).1.pendingOffers = [("alice", offerAlice)] ∧
    (handleClientMsg (disconnectClient stOffer 0).1 1
        ⟨MsgTypeFileAcc, "", "alice", "", ""⟩).2 =
      [(0, ⟨MsgTypeFileAcc, "bob", "notes.txt", "", ""⟩)] := by
  decide

/-- Claim C7 amended: When a registered participant X's read loop ends,
the host removes X from the registry before broadcasting, broadcasts a
System frame whose text is X's current nickname followed by " left" to
exactly the remaining registered participants, and the disconnect path
itself writes no frame to X's connection.  X's pending offers are *not*
cleaned up, however, so a later FileAccept/FileReject citing X's
nickname still writes a frame to X's removed connection. -/
theorem disconnect_removes_then_broadcasts (st : HostState) (conn : Nat) :
    (disconnectClient st conn).1.clients = alErase st.clients conn ∧
    (disconnectClient st conn).2 =
      (alErase st.clients conn).map (fun p =>
        (p.1, ⟨MsgTypeSystem, "", ((alGet st.clients conn).getD "") ++ " left", "", ""⟩)) ∧
    (disconnectClient st conn).1.pendingOffers = st.pendingOffers ∧
    ∀ m : Message, (conn, m) ∉ (disconnectClient st conn).2 := by
  refine ⟨rfl, by simp [disconnectClient, hostBroadcast], rfl, ?_⟩
  intro m hm
  simp only [disconnectClient, hostBroadcast, List.mem_map, List.mem_filter] at hm
  obtain ⟨p, hp, he⟩ := hm
  have hpc : p.1 = conn := by
    have := congrArg Prod.fst he
    simpa using this
  have hpmem : p ∈ alErase st.clients conn := by
    simpa using hp.1
  have : p.1 ≠ conn := by
    have := List.of_mem_filter hpmem
    simpa using this
  exact this hpc

/-- Claim C8: A fresh connection whose first read fails or yields a
non-Join frame is closed without registration and without any broadcast:
the host state is unchanged and no frame is emitted. -/
theorem first_frame_nonjoin_rejected (st : HostState) (conn : Nat) (first : Option Message)
    (h : ∀ msg, first = some msg → msg.type ≠ MsgTypeJoin) :
    handleFirstFrame st conn first = (st, ([], false)) := by
  cases first with
  | none => rfl
  | some msg => simp [handleFirstFrame, h msg rfl]

/-- Witness for C8: a Chat frame as the first frame on a new connection
is rejected with no state change and no output. -/
theorem first_frame_nonjoin_rejected_witness :
    (∀ msg : Message,
      (some ⟨MsgTypeMsg, "zoe", "hi", "", ""⟩ : Option Message) = some msg →
        msg.type ≠ MsgTypeJoin) ∧
    handleFirstFrame stAB 5 (some ⟨MsgTypeMsg, "zoe", "hi", "", ""⟩) = (stAB, ([], false)) :=
  ⟨fun msg e => by cases e; decide,
   first_frame_nonjoin_rejected stAB 5 _ (fun msg e => by cases e; decide)⟩

/-- Claim C10: A FileOffer is recorded in the pending-offer table keyed by
the sender's nickname whatever its target (host, unknown, broadcast or a
named peer), and resolution by FileAccept never checks the resolver
against the stored recipient: any connection citing the sender's
nickname receives the resolution flow — the stored sender connection
gets one FileAccept frame naming the acceptor and the offered
filename. -/
theorem offer_recorded_any_target (st : HostState) (conn : Nat) (offerMsg : Message)
    (connB : Nat) (accMsg : Message)
    (h1 : offerMsg.type = MsgTypeFileOffer) (h2 : accMsg.type = MsgTypeFileAcc)
    (hcite : accMsg.text = (alGet st.clients conn).getD "") :
    alGetS (handleClientMsg st conn offerMsg).1.pendingOffers
        ((alGet st.clients conn).getD "") =
      some ⟨(alGet st.clients conn).getD "", conn, offerMsg.text, offerMsg.target⟩ ∧
    (handleClientMsg (handleClientMsg st conn offerMsg).1 connB accMsg).2 =
      [(conn, ⟨MsgTypeFileAcc,
        (alGet (handleClientMsg st conn offerMsg).1.clients connB).getD "",
        offerMsg.text, "", ""⟩)] := by
  obtain ⟨hc1, hh1, hp1⟩ := handleClientMsg_fileoffer st conn offerMsg h1
  have hget : alGetS (handleClientMsg st conn offerMsg).1.pendingOffers
      ((alGet st.clients conn).getD "") =
      some ⟨(alGet st.clients conn).getD "", conn, offerMsg.text, offerMsg.target⟩ := by
    rw [hp1]
    exact alGetS_alSetS_self _ _ _
  refine ⟨hget, ?_⟩
  rw [handleClientMsg_fileacc_hit _ connB accMsg
    ⟨(alGet st.clients conn).getD "", conn, offerMsg.text, offerMsg.target⟩ h2
    (by rw [hcite]; exact hget)]

/-- Witness for C10: `alice` offers `notes.txt` to `bob`, but `carol`
(connection 2) cites `alice` and resolves the offer; connection 0
receives the FileAccept naming `carol`. -/
theorem offer_recorded_any_target_witness :
    (⟨MsgTypeFileOffer, "", "notes.txt", "1KB", "bob"⟩ : Message).type = MsgTypeFileOffer ∧
    (⟨MsgTypeFileAcc, "", "alice", "", ""⟩ : Message).type = MsgTypeFileAcc ∧
    (handleClientMsg
      (handleClientMsg stABC 0 ⟨MsgTypeFileOffer, "", "notes.txt", "1KB", "bob"⟩).1
      2 ⟨MsgTypeFileAcc, "", "alice", "", ""⟩).2 =
      [(0, ⟨MsgTypeFileAcc, "carol", "notes.txt", "", ""⟩)] :=
  ⟨rfl, rfl,
   (offer_recorded_any_target stABC 0 ⟨MsgTypeFileOffer, "", "notes.txt", "1KB", "bob"⟩
      2 ⟨MsgTypeFileAcc, "", "alice", "", ""⟩ rfl rfl (by decide)).2⟩

end CabinChat
